import Mathlib

/-!
Verification of the AVR speech-to-speech gateway (`index.js`, `loadTools.js`,
`apiClient.js`, `avr_tools/avr_get_caller_info.js`).

Shallow embedding: audio samples are `Int` (16-bit PCM values pass through the
framing code untouched, so no modular arithmetic is needed there); the
per-session mutable variables of `handleClientConnection` become an explicit
`SessionState` record; WebSocket sends become lists of emitted messages; the
module-level `apiToolHandlers` JS `Map` becomes an association list with
JS-`Map` insertion semantics.
-/

set_option autoImplicit false

namespace AvrSts

/-- One 20 ms telephony frame is 160 samples (320 bytes of PCM16LE at 8 kHz). -/
def frameSize : Nat := 160

/-- The fixed number of trailing all-silence frames sent by `flushAudioBuffer`
(`const silenceFrames = 5` in `index.js`). -/
def silenceFrameCount : Nat := 5

/-- An all-zero 160-sample frame (`new Int16Array(160)` in `index.js`). -/
def silenceFrame : List Int := List.replicate frameSize 0

/-- The frame-extraction loop shared by `processOpenAIAudioChunk` and
`flushAudioBuffer` in `index.js`:
`while (buf.length >= 160) { frame = buf.slice(0,160); buf = buf.slice(160); }`.
Returns the extracted frames in order and the remaining buffer. -/
def extractFrames (buf : List Int) : List (List Int) × List Int :=
  if h : frameSize ≤ buf.length then
    let rest := extractFrames (buf.drop frameSize)
    (buf.take frameSize :: rest.1, rest.2)
  else
    ([], buf)
termination_by buf.length
decreasing_by simp only [List.length_drop, frameSize] at *; omega

/-- The framing stage of `processOpenAIAudioChunk` (`index.js` lines 122-135):
append the freshly downsampled samples to `audioBuffer8k`, then slice off all
complete 160-sample frames; the remainder stays buffered. -/
def frameAccumulate (audioBuffer8k downsampled : List Int) :
    List (List Int) × List Int :=
  extractFrames (audioBuffer8k ++ downsampled)

/-- `flushAudioBuffer` from `index.js` (lines 142-200). `clientOpen` models
`clientWs.readyState === WebSocket.OPEN`, which guards every individual send
but not the buffer mutation. Returns the frames sent to the client and the
final buffer (always emptied). -/
def flushAudioBuffer (clientOpen : Bool) (buf : List Int) :
    List (List Int) × List Int :=
  if buf.length > 0 then
    let fr := extractFrames buf
    let padded : List (List Int) :=
      if fr.2.length > 0 then
        [fr.2 ++ List.replicate (frameSize - fr.2.length) 0]
      else []
    let silence : List (List Int) := List.replicate silenceFrameCount silenceFrame
    (if clientOpen then fr.1 ++ padded ++ silence else [], [])
  else
    ([], [])

/- Basic lemmas about `extractFrames`. -/

theorem extractFrames_of_le {buf : List Int} (h : frameSize ≤ buf.length) :
    extractFrames buf =
      ((buf.take frameSize) :: (extractFrames (buf.drop frameSize)).1,
        (extractFrames (buf.drop frameSize)).2) := by
  rw [extractFrames.eq_def]
  simp [h]

theorem extractFrames_of_lt {buf : List Int} (h : buf.length < frameSize) :
    extractFrames buf = ([], buf) := by
  rw [extractFrames.eq_def]
  simp [Nat.not_le_of_lt h]

/-- Every frame produced by the extraction loop has exactly 160 samples. -/
theorem extractFrames_mem_length :
    ∀ n (buf : List Int), buf.length ≤ n →
      ∀ f ∈ (extractFrames buf).1, f.length = frameSize := by
  intro n
  induction n with
  | zero =>
    intro buf hlen f hf
    have hlt : buf.length < frameSize := by
      simp [frameSize]; omega
    rw [extractFrames_of_lt hlt] at hf
    simp at hf
  | succ n ih =>
    intro buf hlen f hf
    by_cases h : frameSize ≤ buf.length
    · rw [extractFrames_of_le h] at hf
      rcases List.mem_cons.mp hf with h1 | h2
      · subst h1
        simp only [List.length_take, frameSize] at *
        omega
      · refine ih (buf.drop frameSize) ?_ f h2
        simp only [List.length_drop, frameSize] at *
        omega
    · rw [extractFrames_of_lt (Nat.lt_of_not_le h)] at hf
      simp at hf

/-- The remainder left by the extraction loop is a proper partial frame. -/
theorem extractFrames_rest_lt :
    ∀ n (buf : List Int), buf.length ≤ n →
      (extractFrames buf).2.length < frameSize := by
  intro n
  induction n with
  | zero =>
    intro buf hlen
    have hlt : buf.length < frameSize := by
      simp [frameSize]; omega
    rw [extractFrames_of_lt hlt]
    exact hlt
  | succ n ih =>
    intro buf hlen
    by_cases h : frameSize ≤ buf.length
    · rw [extractFrames_of_le h]
      refine ih (buf.drop frameSize) ?_
      simp only [List.length_drop, frameSize] at *
      omega
    · rw [extractFrames_of_lt (Nat.lt_of_not_le h)]
      exact Nat.lt_of_not_le h

/-- Extraction loses no samples and keeps them in order. -/
theorem extractFrames_join :
    ∀ n (buf : List Int), buf.length ≤ n →
      (extractFrames buf).1.flatten ++ (extractFrames buf).2 = buf := by
  intro n
  induction n with
  | zero =>
    intro buf hlen
    have hlt : buf.length < frameSize := by
      simp [frameSize]; omega
    rw [extractFrames_of_lt hlt]
    simp
  | succ n ih =>
    intro buf hlen
    by_cases h : frameSize ≤ buf.length
    · rw [extractFrames_of_le h]
      have := ih (buf.drop frameSize)
        (by simp only [List.length_drop, frameSize] at *; omega)
      simp only [List.flatten_cons, List.append_assoc, this]
      exact List.take_append_drop frameSize buf
    · rw [extractFrames_of_lt (Nat.lt_of_not_le h)]
      simp

/-!
## Resampler model

The resampler itself lives in the external `@alexanderolsen/libsamplerate-js`
library, not in this repository, so its internals are modelled from the spec.
The sharing structure around it (`globalDownsampler` / `globalUpsampler`,
module-level variables used by every connection) is taken from `index.js`.
-/

/-- Modelled from the spec: the spec describes the Resampler as a "stateful
sample-rate converter" whose "internal interpolation state persists between
invocations" (the `.full()` streaming API). The 24 kHz to 8 kHz direction is
an exact 3:1 ratio, modelled as decimation by 3: emit one sample per three
consumed, carrying fewer than three leftover samples in the converter state
to the next invocation. -/
def decimate3 : List Int → List Int
  | a :: _ :: _ :: rest => a :: decimate3 rest
  | _ => []

/-- Modelled from the spec: one streaming invocation of the 24k→8k converter.
`pending` is the internal state carried between invocations; the result pairs
the emitted 8 kHz samples with the new state. -/
def downsampleStep (pending input : List Int) : List Int × List Int :=
  let all := pending ++ input
  (decimate3 all, all.drop (3 * (all.length / 3)))

/-- Modelled from the spec: one streaming invocation of the 8k→24k converter
(exact 1:3 ratio — every input sample yields three output samples, so no
samples are carried over; the state is threaded through unchanged). -/
def upsampleStep (pending input : List Int) : List Int × List Int :=
  (input.flatMap (fun a => [a, a, a]), pending)

/-- `processOpenAIAudioChunk` from `index.js` (lines 111-136): downsample the
24 kHz chunk through the downsampler whose state is `pending`, append to
`audioBuffer8k`, slice off complete frames. Returns the new downsampler
state, the emitted frames, and the new buffer. -/
def processOpenAIAudioChunk (pending audioBuffer8k inputSamples : List Int) :
    List Int × List (List Int) × List Int :=
  let down := downsampleStep pending inputSamples
  let fr := frameAccumulate audioBuffer8k down.1
  (down.2, fr.1, fr.2)

/-- A run of downsampling events through ONE shared converter state, as the
code does with `globalDownsampler` (shared across all connections). Each
event is a session tag paired with the 24 kHz input chunk of that session; the
output keeps the tag with the samples produced for that session. -/
def runShared (st : List Int) : List (Bool × List Int) → List (Bool × List Int)
  | [] => []
  | (sid, chunk) :: rest =>
    let r := downsampleStep st chunk
    (sid, r.1) :: runShared r.2 rest

/-- The same run with one converter state per session, as the spec requires
("one direction instance per (session, direction) pair"). -/
def runIsolated (stA stB : List Int) :
    List (Bool × List Int) → List (Bool × List Int)
  | [] => []
  | (sid, chunk) :: rest =>
    if sid then
      let r := downsampleStep stA chunk
      (true, r.1) :: runIsolated r.2 stB rest
    else
      let r := downsampleStep stB chunk
      (false, r.1) :: runIsolated stA r.2 rest

/-- The samples a given session observed during a run, in order. -/
def sessionOutputs (sid : Bool) (run : List (Bool × List Int)) :
    List (List Int) :=
  (run.filter (fun e => e.1 == sid)).map (fun e => e.2)

/-!
## Session state and handlers (`handleClientConnection` in `index.js`)
-/

/-- The caller record fetched at `init`; all fields nullable
(`fetchCallerInfo` in `index.js`). -/
structure CallerInfo where
  phoneNumber : Option String
  callerName : Option String
  callerId : Option String
  channel : Option String
  context : Option String
  extensionNumber : Option String
deriving DecidableEq, Repr

/-- The per-connection mutable variables of `handleClientConnection`:
`audioBuffer8k`, `sessionUuid`, `callerInfo`, `isInitialized`, plus the two
sockets. `ws = none` models the backend socket variable still being `null`;
`ws = some b` models an existing backend socket whose
`readyState === WebSocket.OPEN` equals `b`. `clientOpen` models
`clientWs.readyState === WebSocket.OPEN`. -/
structure SessionState where
  audioBuffer8k : List Int
  sessionUuid : Option String
  callerInfo : Option CallerInfo
  isInitialized : Bool
  ws : Option Bool
  clientOpen : Bool
deriving DecidableEq, Repr

/-- `ws.close()` guarded by `readyState === OPEN`. -/
def closeIfOpen : Option Bool → Option Bool
  | some true => some false
  | x => x

/-- `cleanup` from `index.js` (lines 593-612): flush, clear the buffer, null
out `sessionUuid` and `callerInfo`, reset `isInitialized`, close either
socket if still open. Returns the new state and the frames the flush sent to
the client. -/
def cleanup (s : SessionState) : SessionState × List (List Int) :=
  let fr := flushAudioBuffer s.clientOpen s.audioBuffer8k
  ({ audioBuffer8k := [],
     sessionUuid := none,
     callerInfo := none,
     isInitialized := false,
     ws := closeIfOpen s.ws,
     clientOpen := false }, fr.1)

/-- The backend `ws.on("close")` handler from `index.js` (lines 565-571): it
only flushes and resets `isInitialized` "to allow reconnection"; it does NOT
run `cleanup`, so `sessionUuid` and `callerInfo` survive. -/
def onBackendClose (s : SessionState) : SessionState × List (List Int) :=
  let fr := flushAudioBuffer s.clientOpen s.audioBuffer8k
  ({ s with audioBuffer8k := fr.2, isInitialized := false }, fr.1)

/-- The backend `ws.on("error")` handler from `index.js` (lines 573-576):
runs `cleanup`. -/
def onBackendError (s : SessionState) : SessionState × List (List Int) :=
  cleanup s

/-- Messages the session sends over the backend socket (the subset the
verified handlers emit). -/
inductive BackendOut where
  | inputAudioBufferAppend (audio : List Int)
  | responseCreate (instructions : String)
deriving DecidableEq, Repr

/-- Messages the session sends to the client (the subset the verified
handlers emit; audio messages carry one frame of samples). -/
inductive ClientOut where
  | audioMsg (frame : List Int)
  | errorMsg (msg : String)
deriving DecidableEq, Repr

/-- The `case "audio"` branch of the client message handler in `index.js`
(lines 257-272): forward the upsampled audio as `input_audio_buffer.append`
only when `message.audio` is truthy and `ws` exists and is open; in every
other case nothing is sent, nothing is buffered, and no error goes to the
client. `upPending` is the shared upsampler state (`globalUpsampler`).
Returns the new upsampler state, the new session state, and the messages
sent to the backend and to the client. -/
def handleClientAudio (upPending : List Int) (s : SessionState)
    (audio : List Int) :
    List Int × SessionState × List BackendOut × List ClientOut :=
  if audio ≠ [] ∧ s.ws = some true then
    let up := upsampleStep upPending audio
    (up.2, s, [BackendOut.inputAudioBufferAppend up.1], [])
  else
    (upPending, s, [], [])

/-!
## Tool registry (`loadTools.js`)
-/

/-- A remote tool handler descriptor (`t.handler` of an API tool): the POST
target URL and a header list of key/value pairs. A JS `t.handler.url` that
is absent or empty (falsy) is modelled as `url = ""`. -/
structure ApiHandlerCfg where
  url : String
  headers : List (String × String)
deriving DecidableEq, Repr

/-- One tool entry as fetched from the agent API. A falsy `t.name` is
modelled as `name = ""`; a falsy `t.handler` as `handler = none`;
`inputSchema` stands for the opaque `input_schema` JSON value. -/
structure ApiTool where
  name : String
  description : String
  inputSchema : String
  handler : Option ApiHandlerCfg
deriving DecidableEq, Repr

/-- A tool definition announced to the backend
(type function, plus name, description, parameters). -/
structure ToolDef where
  name : String
  description : String
  parameters : String
deriving DecidableEq, Repr

/-- The `apiToolHandlers` JS `Map`, as an association list; `Map.set`
replaces an existing key in place and otherwise appends. -/
def mapSet : List (String × ApiHandlerCfg) → String → ApiHandlerCfg →
    List (String × ApiHandlerCfg)
  | [], k, v => [(k, v)]
  | (k9, v9) :: rest, k, v =>
    if k9 = k then (k, v) :: rest else (k9, v9) :: mapSet rest k v

/-- `Map.get` on the association list. -/
def mapGet : List (String × ApiHandlerCfg) → String → Option ApiHandlerCfg
  | [], _ => none
  | (k9, v9) :: rest, k => if k9 = k then some v9 else mapGet rest k

/-- The body of the `forEach` in `setApiTools`: register the entry only if
it has a truthy `name` and a handler with a truthy `url`. -/
def registerApiTool (m : List (String × ApiHandlerCfg)) (t : ApiTool) :
    List (String × ApiHandlerCfg) :=
  if t.name ≠ "" then
    match t.handler with
    | some h => if h.url ≠ "" then mapSet m t.name h else m
    | none => m
  else m

/-- `setApiTools` from `loadTools.js` (lines 117-124): clear the module-wide
`apiToolHandlers` map (`apiToolHandlers.clear()`), then register each valid
entry. The previous contents `m` — whichever session wrote them — are
discarded. -/
def setApiTools (apiTools : List ApiTool) (m : List (String × ApiHandlerCfg)) :
    List (String × ApiHandlerCfg) :=
  let _ := m
  apiTools.foldl registerApiTool []

/-- `buildApiToolDefinitions` from `loadTools.js` (lines 131-140): every
entry with a truthy `name` is turned into a definition — the handler (and
whether it has a `url`) is not consulted. -/
def buildApiToolDefinitions (apiTools : List ApiTool) : List ToolDef :=
  (apiTools.filter (fun t => t.name ≠ "")).map
    (fun t => ⟨t.name, t.description, t.inputSchema⟩)

/-- `loadTools` from `loadTools.js` (lines 147-183): definitions read from
the `avr_tools` directory, then the `tools` directory, then the API tool
definitions. The two directory scans are modelled by the definition lists
they produce. -/
def loadTools (avrDefs userDefs : List ToolDef) (apiTools : List ApiTool) :
    List ToolDef :=
  avrDefs ++ userDefs ++ buildApiToolDefinitions apiTools

/-- A resolved tool handler: a module loaded from `avr_tools/<name>.js`,
a module loaded from `tools/<name>.js`, or the generic remote HTTP handler
built from a registered API descriptor. -/
inductive ToolHandler where
  | localAvr (name : String)
  | localUser (name : String)
  | remoteApi (cfg : ApiHandlerCfg)
deriving DecidableEq, Repr

/-- `getToolHandler` from `loadTools.js` (lines 191-241): look for
`avr_tools/<name>.js` first, then `tools/<name>.js`, then the registered API
handlers; otherwise throw. `avrFiles` and `userFiles` model the sets of tool
names for which a file exists in the respective directory. -/
def getToolHandler (avrFiles userFiles : List String)
    (m : List (String × ApiHandlerCfg)) (name : String) :
    Except String ToolHandler :=
  if name ∈ avrFiles then Except.ok (ToolHandler.localAvr name)
  else if name ∈ userFiles then Except.ok (ToolHandler.localUser name)
  else
    match mapGet m name with
    | some cfg => Except.ok (ToolHandler.remoteApi cfg)
    | none =>
      Except.error
        ("Tool \"" ++ name ++
          "\" not found in any available directory or API registry")

/-- The `case "response.function_call_arguments.done"` branch of the backend
message handler in `index.js` (lines 488-529). A `getToolHandler` throw is
caught by the outer `try/catch` of the message handler (logged only); a handler exception
is caught by the inner `try/catch` (logged only, then `return`); a
successful call sends one `response.create` whose instructions are the
normalised result text. `invoke` maps the resolved handler to its outcome:
`Except.error` models a thrown exception, `Except.ok` the normalised result
string. Returns the messages sent to the backend and to the client. -/
def handleFunctionCallDone (avrFiles userFiles : List String)
    (m : List (String × ApiHandlerCfg)) (name : String)
    (invoke : ToolHandler → Except String String) :
    List BackendOut × List ClientOut :=
  match getToolHandler avrFiles userFiles m name with
  | Except.error _ => ([], [])
  | Except.ok h =>
    match invoke h with
    | Except.error _ => ([], [])
    | Except.ok content => ([BackendOut.responseCreate content], [])

/-!
## Helper lemmas
-/

theorem flushAudioBuffer_nil (c : Bool) : flushAudioBuffer c [] = ([], []) := by
  rfl

theorem flushAudioBuffer_snd (c : Bool) (buf : List Int) :
    (flushAudioBuffer c buf).2 = [] := by
  unfold flushAudioBuffer
  split <;> rfl

theorem flushAudioBuffer_pos {buf : List Int} (h : 0 < buf.length) (c : Bool) :
    flushAudioBuffer c buf =
      (if c then
          (extractFrames buf).1 ++
            (if 0 < (extractFrames buf).2.length then
              [(extractFrames buf).2 ++
                 List.replicate (frameSize - (extractFrames buf).2.length) 0]
             else []) ++
            List.replicate silenceFrameCount silenceFrame
        else [], []) := by
  simp only [flushAudioBuffer, h, if_pos, gt_iff_lt]

theorem closeIfOpen_idem (x : Option Bool) :
    closeIfOpen (closeIfOpen x) = closeIfOpen x := by
  cases x with
  | none => rfl
  | some b => cases b <;> rfl

/-!
## Claim theorems
-/

/-- C1: flushing a session buffer holding `n` pending samples with
`0 < n < 160` (client socket open) emits exactly one frame zero-padded to 160
samples followed by the fixed number (5) of all-silence frames and empties
the buffer; flushing an empty buffer emits nothing and leaves it empty, so a
second flush right after a flush is a no-op. -/
theorem flush_small_buffer_spec (buf : List Int)
    (h1 : 0 < buf.length) (h2 : buf.length < frameSize) :
    flushAudioBuffer true buf =
      ((buf ++ List.replicate (frameSize - buf.length) 0) ::
         List.replicate silenceFrameCount silenceFrame, []) ∧
    flushAudioBuffer true [] = ([], []) := by
  refine ⟨?_, rfl⟩
  rw [flushAudioBuffer_pos h1, extractFrames_of_lt h2]
  simp [h1]

theorem flush_small_buffer_spec_witness :
    flushAudioBuffer true [(7 : Int)] =
      (([(7 : Int)] ++ List.replicate (frameSize - [(7 : Int)].length) 0) ::
         List.replicate silenceFrameCount silenceFrame, []) ∧
    flushAudioBuffer true [] = ([], []) :=
  flush_small_buffer_spec [7] (by decide) (by decide)

/-- C3: starting from an empty sample buffer, an input of downsampled samples
whose count is `160 * k` makes the framer emit exactly `k` complete frames,
each of 160 samples, whose concatenation is the input (frames in order), and
leaves the sample buffer empty. -/
theorem framer_exact_multiple_spec : ∀ (k : Nat) (input : List Int),
    input.length = frameSize * k →
    (frameAccumulate [] input).1.length = k ∧
    (frameAccumulate [] input).1.flatten = input ∧
    (∀ f ∈ (frameAccumulate [] input).1, f.length = frameSize) ∧
    (frameAccumulate [] input).2 = [] := by
  have hmem : ∀ (input : List Int), ∀ f ∈ (frameAccumulate [] input).1,
      f.length = frameSize := by
    intro input f hf
    simp only [frameAccumulate, List.nil_append] at hf
    exact extractFrames_mem_length input.length input le_rfl f hf
  intro k
  induction k with
  | zero =>
    intro input h
    have hnil : input = [] := List.eq_nil_of_length_eq_zero (by omega)
    subst hnil
    have h0 : extractFrames ([] : List Int) = ([], []) :=
      extractFrames_of_lt (by simp [frameSize])
    refine ⟨?_, ?_, hmem [], ?_⟩ <;> simp [frameAccumulate, h0]
  | succ k ih =>
    intro input h
    have hle : frameSize ≤ input.length := by
      simp only [frameSize] at h ⊢
      omega
    have hdrop : (input.drop frameSize).length = frameSize * k := by
      simp only [List.length_drop, frameSize] at h ⊢
      omega
    have IH := ih (input.drop frameSize) hdrop
    simp only [frameAccumulate, List.nil_append] at IH ⊢
    rw [extractFrames_of_le hle]
    refine ⟨by simp [IH.1], ?_, ?_, IH.2.2.2⟩
    · simp only [List.flatten_cons, IH.2.1]
      exact List.take_append_drop frameSize input
    · have := hmem input
      simp only [frameAccumulate, List.nil_append,
        extractFrames_of_le hle] at this
      exact this

theorem framer_exact_multiple_spec_witness :
    (frameAccumulate [] (List.replicate frameSize (0 : Int))).1.length = 1 ∧
    (frameAccumulate [] (List.replicate frameSize (0 : Int))).1.flatten =
      List.replicate frameSize (0 : Int) ∧
    (∀ f ∈ (frameAccumulate [] (List.replicate frameSize (0 : Int))).1,
      f.length = frameSize) ∧
    (frameAccumulate [] (List.replicate frameSize (0 : Int))).2 = [] :=
  framer_exact_multiple_spec 1 (List.replicate frameSize 0) (by simp)

/-- C4: every audio frame the server emits to the client — whether from the
steady-state framing of `processOpenAIAudioChunk` or from any of the three
send sites of `flushAudioBuffer` (full frames, the zero-padded partial
frame, the trailing silence frames) — has exactly 160 samples, i.e. 320
bytes of PCM16LE at 8 kHz. -/
theorem audio_frames_always_full :
    (∀ (buf input : List Int), ∀ f ∈ (frameAccumulate buf input).1,
      f.length = frameSize) ∧
    (∀ (c : Bool) (buf : List Int), ∀ f ∈ (flushAudioBuffer c buf).1,
      f.length = frameSize) := by
  constructor
  · intro buf input f hf
    exact extractFrames_mem_length (buf ++ input).length (buf ++ input)
      le_rfl f hf
  · intro c buf f hf
    by_cases hb : 0 < buf.length
    · rw [flushAudioBuffer_pos hb] at hf
      cases c with
      | false => simp at hf
      | true =>
        simp only [if_pos] at hf
        rcases List.mem_append.mp hf with hf1 | hf2
        · rcases List.mem_append.mp hf1 with hf3 | hf4
          · exact extractFrames_mem_length buf.length buf le_rfl f hf3
          · by_cases hr : 0 < (extractFrames buf).2.length
            · simp only [hr, if_pos, List.mem_singleton] at hf4
              subst hf4
              have hlt := extractFrames_rest_lt buf.length buf le_rfl
              simp only [List.length_append, List.length_replicate]
              omega
            · simp [hr] at hf4
        · have := List.eq_of_mem_replicate hf2
          subst this
          simp [silenceFrame]
    · have hnil : buf = [] := by
        cases buf with
        | nil => rfl
        | cons a l => simp at hb
      subst hnil
      simp [flushAudioBuffer_nil] at hf

theorem audio_frames_always_full_witness :
    ([(5 : Int)] ++ List.replicate (frameSize - 1) 0).length = frameSize ∧
    (List.replicate frameSize (0 : Int)).length = frameSize :=
  ⟨audio_frames_always_full.2 true [5]
      ([(5 : Int)] ++ List.replicate (frameSize - 1) 0)
      (by
        rw [flushAudioBuffer_pos (by decide : 0 < ([(5 : Int)]).length),
          extractFrames_of_lt (by decide : ([(5 : Int)]).length < frameSize)]
        simp),
   audio_frames_always_full.1 [] (List.replicate frameSize 0)
      (List.replicate frameSize (0 : Int))
      (by
        simp only [frameAccumulate, List.nil_append]
        rw [extractFrames_of_le (by simp : frameSize ≤
          (List.replicate frameSize (0 : Int)).length)]
        simp)⟩

/-- C2: the code shares ONE downsampler (`globalDownsampler`) across all
connections, so session isolation fails: with session A feeding `[1]` and
then `[2, 3]`, interleaving the chunk `[0, 0, 0]` of session B in between changes
the samples produced for A (A gets `[[], [0]]` instead of the `[[], [1]]` an
isolated per-session converter produces) — the output of A is not bit-for-bit
independent of the interleaved run of B, refuting the claimed isolation. -/
theorem shared_resampler_cross_session_interference :
    sessionOutputs true (runShared []
        [(true, [1]), (false, [0, 0, 0]), (true, [2, 3])]) ≠
      sessionOutputs true (runIsolated [] []
        [(true, [1]), (false, [0, 0, 0]), (true, [2, 3])]) := by
  decide

/-- C7 counterexample: a backend-connection close does NOT run the cleanup
routine: for a session with id `"abc"` and a populated caller record, the
`ws.on("close")` handler retains both (it only flushes and clears
`isInitialized`), so session-scoped state is not released and the resulting
state differs from the cleaned-up one. -/
theorem backend_close_retains_session_state :
    (onBackendClose
        { audioBuffer8k := [],
          sessionUuid := some "abc",
          callerInfo := some ⟨some "+1234567890", none, none, none, none, none⟩,
          isInitialized := true,
          ws := some false,
          clientOpen := true }).1.sessionUuid = some "abc" ∧
    (onBackendClose
        { audioBuffer8k := [],
          sessionUuid := some "abc",
          callerInfo := some ⟨some "+1234567890", none, none, none, none, none⟩,
          isInitialized := true,
          ws := some false,
          clientOpen := true }).1.callerInfo ≠ none := by
  decide

/-- C7 amended: a backend-connection ERROR flushes buffered audio and runs
the idempotent cleanup routine, releasing all session-scoped state (sample
buffer, session id, caller info) and marking the session uninitialised; a
backend-connection CLOSE only flushes buffered audio and clears the
initialisation flag — session id and caller info are retained so that a
subsequent `init` on the same client connection opens a fresh backend
connection. -/
theorem backend_close_error_behavior (s : SessionState) :
    ((onBackendError s).1.sessionUuid = none ∧
     (onBackendError s).1.callerInfo = none ∧
     (onBackendError s).1.audioBuffer8k = [] ∧
     (onBackendError s).1.isInitialized = false ∧
     (onBackendError s).2 = (flushAudioBuffer s.clientOpen s.audioBuffer8k).1) ∧
    cleanup (cleanup s).1 = ((cleanup s).1, []) ∧
    ((onBackendClose s).1.sessionUuid = s.sessionUuid ∧
     (onBackendClose s).1.callerInfo = s.callerInfo ∧
     (onBackendClose s).1.audioBuffer8k = [] ∧
     (onBackendClose s).1.isInitialized = false ∧
     (onBackendClose s).2 = (flushAudioBuffer s.clientOpen s.audioBuffer8k).1) := by
  refine ⟨⟨rfl, rfl, rfl, rfl, rfl⟩, ?_, ⟨rfl, rfl, ?_, rfl, rfl⟩⟩
  · simp [cleanup, flushAudioBuffer_nil, closeIfOpen_idem]
  · simp [onBackendClose, flushAudioBuffer_snd]

/-- C8: a client `audio` message arriving while the backend socket is absent
or not open is dropped: the upsampler state and the session state (including
the sample buffer) are unchanged, nothing is sent to the backend, and no
message — in particular no error — is sent to the client. -/
theorem preconnection_audio_dropped (up : List Int) (s : SessionState)
    (audio : List Int) (h : s.ws ≠ some true) :
    handleClientAudio up s audio = (up, s, [], []) := by
  unfold handleClientAudio
  rw [if_neg]
  intro hc
  exact h hc.2

theorem preconnection_audio_dropped_witness :
    handleClientAudio [] ⟨[], none, none, false, none, true⟩ [(5 : Int)] =
      ([], ⟨[], none, none, false, none, true⟩, [], []) :=
  preconnection_audio_dropped [] ⟨[], none, none, false, none, true⟩ [5]
    (by decide)

/-- C5: tool resolution order is fixed — `avr_tools` first, then `tools`,
then the API handler registry — so a locally available tool always shadows a
same-named registered API tool at dispatch time. -/
theorem tool_resolution_order (avr user : List String)
    (m : List (String × ApiHandlerCfg)) (name : String) :
    (name ∈ avr →
      getToolHandler avr user m name =
        Except.ok (ToolHandler.localAvr name)) ∧
    (name ∉ avr → name ∈ user →
      getToolHandler avr user m name =
        Except.ok (ToolHandler.localUser name)) ∧
    (name ∉ avr → name ∉ user → ∀ cfg, mapGet m name = some cfg →
      getToolHandler avr user m name =
        Except.ok (ToolHandler.remoteApi cfg)) ∧
    (name ∈ avr ∨ name ∈ user → ∀ cfg,
      getToolHandler avr user m name ≠
        Except.ok (ToolHandler.remoteApi cfg)) := by
  refine ⟨?_, ?_, ?_, ?_⟩
  · intro h1
    simp [getToolHandler, h1]
  · intro h1 h2
    simp [getToolHandler, h1, h2]
  · intro h1 h2 cfg hc
    simp [getToolHandler, h1, h2, hc]
  · intro h1 cfg
    by_cases ha : name ∈ avr
    · simp [getToolHandler, ha]
    · have hu : name ∈ user := h1.resolve_left ha
      simp [getToolHandler, ha, hu]

theorem tool_resolution_order_witness :
    getToolHandler ["dup"] [] [("dup", ⟨"http:", []⟩)] "dup" =
      Except.ok (ToolHandler.localAvr "dup") ∧
    getToolHandler ["dup"] [] [("dup", ⟨"http:", []⟩)] "dup" ≠
      Except.ok (ToolHandler.remoteApi ⟨"http:", []⟩) :=
  ⟨(tool_resolution_order ["dup"] [] [("dup", ⟨"http:", []⟩)] "dup").1
      (by decide),
   (tool_resolution_order ["dup"] [] [("dup", ⟨"http:", []⟩)] "dup").2.2.2
      (Or.inl (by decide)) ⟨"http:", []⟩⟩

/-- C6: when the tool name resolves to no handler (`getToolHandler` throws,
caught by the outer message-handler catch) or the resolved handler throws
(caught by the inner try/catch), the pending function call is dropped:
nothing is sent to the backend (in particular no `response.create`) and
nothing — in particular no error — is sent to the client. -/
theorem tool_failure_drops_silently (avr user : List String)
    (m : List (String × ApiHandlerCfg)) (name : String)
    (invoke : ToolHandler → Except String String) :
    (∀ e, getToolHandler avr user m name = Except.error e →
      handleFunctionCallDone avr user m name invoke = ([], [])) ∧
    (∀ h e, getToolHandler avr user m name = Except.ok h →
      invoke h = Except.error e →
      handleFunctionCallDone avr user m name invoke = ([], [])) := by
  constructor
  · intro e he
    simp [handleFunctionCallDone, he]
  · intro h e hh hi
    simp [handleFunctionCallDone, hh, hi]

theorem tool_failure_drops_silently_witness :
    handleFunctionCallDone [] [] [] "missing"
      (fun _ => Except.error "boom") = ([], []) ∧
    handleFunctionCallDone ["t"] [] [] "t"
      (fun _ => Except.error "boom") = ([], []) :=
  ⟨(tool_failure_drops_silently [] [] [] "missing"
      (fun _ => Except.error "boom")).1
      ("Tool \"missing\" not found in any available directory or API registry")
      (by simp [getToolHandler, mapGet]),
   (tool_failure_drops_silently ["t"] [] [] "t"
      (fun _ => Except.error "boom")).2
      (ToolHandler.localAvr "t") "boom" (by simp [getToolHandler]) rfl⟩

/-- An entry of the API tool list that `setApiTools` actually registers
under the key `n`: truthy name equal to `n`, and a handler with a truthy
`url`. -/
def validApiEntry (t : ApiTool) (n : String) : Prop :=
  t.name = n ∧ n ≠ "" ∧ ∃ h, t.handler = some h ∧ h.url ≠ ""

instance (t : ApiTool) (n : String) : Decidable (validApiEntry t n) := by
  unfold validApiEntry
  cases t.handler <;> exact inferInstance

theorem mapGet_mapSet : ∀ (m : List (String × ApiHandlerCfg)) (k : String)
    (v : ApiHandlerCfg) (n : String),
    mapGet (mapSet m k v) n = if k = n then some v else mapGet m n := by
  intro m k v
  induction m with
  | nil =>
    intro n
    simp [mapSet, mapGet]
  | cons p rest ih =>
    intro n
    obtain ⟨k9, v9⟩ := p
    by_cases h1 : k9 = k
    · subst h1
      by_cases h2 : k9 = n <;> simp [mapSet, mapGet, h2]
    · by_cases h2 : k9 = n
      · subst h2
        have hkn : ¬(k = k9) := fun hh => h1 hh.symm
        simp [mapSet, mapGet, h1, hkn]
      · simp [mapSet, mapGet, h1, h2, ih n]

theorem mapGet_registerApiTool_isSome (m : List (String × ApiHandlerCfg))
    (t : ApiTool) (n : String) :
    (mapGet (registerApiTool m t) n).isSome ↔
      ((mapGet m n).isSome ∨ validApiEntry t n) := by
  unfold registerApiTool validApiEntry
  by_cases h1 : t.name = ""
  · simp only [h1, ne_eq, not_true_eq_false, if_false, ite_self]
    constructor
    · exact Or.inl
    · rintro (hm | ⟨hname, hn, -⟩)
      · exact hm
      · exact absurd hname.symm hn
  · cases hh : t.handler with
    | none =>
      simp [h1, hh]
    | some h =>
      by_cases h2 : h.url = ""
      · simp only [h1, ne_eq, not_false_eq_true, if_true, hh, h2,
          not_true_eq_false, if_false]
        constructor
        · exact Or.inl
        · rintro (hm | ⟨-, -, h9, hh9, hurl9⟩)
          · exact hm
          · cases hh9
            exact absurd h2 hurl9
      · simp only [h1, ne_eq, not_false_eq_true, if_true, hh, h2]
        rw [mapGet_mapSet]
        by_cases h3 : t.name = n
        · subst h3
          simp [h1, h2]
        · simp [h3]

theorem mapGet_setApiTools_isSome : ∀ (L : List ApiTool)
    (prev : List (String × ApiHandlerCfg)) (n : String),
    (mapGet (setApiTools L prev) n).isSome ↔ ∃ t ∈ L, validApiEntry t n := by
  have hfold : ∀ (L : List ApiTool) (acc : List (String × ApiHandlerCfg))
      (n : String),
      (mapGet (L.foldl registerApiTool acc) n).isSome ↔
        ((mapGet acc n).isSome ∨ ∃ t ∈ L, validApiEntry t n) := by
    intro L
    induction L with
    | nil =>
      intro acc n
      simp
    | cons t L ih =>
      intro acc n
      simp only [List.foldl_cons, List.mem_cons]
      rw [ih, mapGet_registerApiTool_isSome]
      constructor
      · rintro ((hm | hv) | ⟨t9, ht9, hv9⟩)
        · exact Or.inl hm
        · exact Or.inr ⟨t, Or.inl rfl, hv⟩
        · exact Or.inr ⟨t9, Or.inr ht9, hv9⟩
      · rintro (hm | ⟨t9, (rfl | ht9), hv9⟩)
        · exact Or.inl (Or.inl hm)
        · exact Or.inl (Or.inr hv9)
        · exact Or.inr ⟨t9, ht9, hv9⟩
  intro L prev n
  unfold setApiTools
  rw [hfold]
  simp [mapGet]

/-- C9: the API-tool handler registry is one shared map: `setApiTools L`
discards whatever any previous call (from any session) registered — the
result is independent of the prior map contents — and afterwards a name is
resolvable as an API tool exactly when `L` contains an entry with that
(truthy) name whose handler has a truthy `url`. -/
theorem setApiTools_registry_spec (L : List ApiTool)
    (prev : List (String × ApiHandlerCfg)) (n : String) :
    (∀ prev9, setApiTools L prev9 = setApiTools L prev) ∧
    ((mapGet (setApiTools L prev) n).isSome ↔
      ∃ t ∈ L, t.name = n ∧ n ≠ "" ∧ ∃ h, t.handler = some h ∧ h.url ≠ "") := by
  constructor
  · intro prev9
    rfl
  · rw [mapGet_setApiTools_isSome]
    unfold validApiEntry
    rfl

/-- C10: an API tool entry with a (truthy) name but no handler `url` is
still announced to the backend by `loadTools`, while `setApiTools` registers
no handler under that name; if no local tool file of that name exists,
`getToolHandler` then throws its not-found error, so the announced tool can
never be invoked. -/
theorem url_less_api_tool_announced_not_invokable
    (avrDefs userDefs : List ToolDef) (avrFiles userFiles : List String)
    (apiTools : List ApiTool) (prev : List (String × ApiHandlerCfg))
    (n : String)
    (hn : n ≠ "")
    (hex : ∃ t ∈ apiTools, t.name = n)
    (hnourl : ∀ t ∈ apiTools, t.name = n → ∀ h, t.handler = some h →
      h.url = "")
    (havr : n ∉ avrFiles) (huser : n ∉ userFiles) :
    n ∈ (loadTools avrDefs userDefs apiTools).map (fun d => d.name) ∧
    mapGet (setApiTools apiTools prev) n = none ∧
    getToolHandler avrFiles userFiles (setApiTools apiTools prev) n =
      Except.error
        ("Tool \"" ++ n ++
          "\" not found in any available directory or API registry") := by
  have hnone : mapGet (setApiTools apiTools prev) n = none := by
    rcases hm : mapGet (setApiTools apiTools prev) n with - | cfg
    · rfl
    · exfalso
      have hs : (mapGet (setApiTools apiTools prev) n).isSome := by
        rw [hm]; rfl
      rw [mapGet_setApiTools_isSome] at hs
      obtain ⟨t, ht, hname, -, h, hhand, hurl⟩ := hs
      exact hurl (hnourl t ht hname h hhand)
  refine ⟨?_, hnone, ?_⟩
  · obtain ⟨t, ht, hname⟩ := hex
    subst hname
    have hdef : (⟨t.name, t.description, t.inputSchema⟩ : ToolDef) ∈
        buildApiToolDefinitions apiTools := by
      unfold buildApiToolDefinitions
      exact List.mem_map.mpr ⟨t, List.mem_filter.mpr ⟨ht, by simpa using hn⟩,
        rfl⟩
    unfold loadTools
    exact List.mem_map.mpr ⟨⟨t.name, t.description, t.inputSchema⟩,
      by simp only [List.mem_append]; exact Or.inr hdef, rfl⟩
  · simp [getToolHandler, havr, huser, hnone]

theorem url_less_api_tool_announced_not_invokable_witness :
    "t" ∈ (loadTools [] [] [⟨"t", "", "", some ⟨"", []⟩⟩]).map
        (fun d => d.name) ∧
    mapGet (setApiTools [⟨"t", "", "", some ⟨"", []⟩⟩] []) "t" = none ∧
    getToolHandler [] [] (setApiTools [⟨"t", "", "", some ⟨"", []⟩⟩] []) "t" =
      Except.error
        ("Tool \"" ++ "t" ++
          "\" not found in any available directory or API registry") :=
  url_less_api_tool_announced_not_invokable [] [] [] []
    [⟨"t", "", "", some ⟨"", []⟩⟩] [] "t"
    (by decide)
    ⟨⟨"t", "", "", some ⟨"", []⟩⟩, by simp, rfl⟩
    (by
      intro t ht hname h hh
      simp only [List.mem_singleton] at ht
      subst ht
      simp only [Option.some.injEq] at hh
      subst hh
      rfl)
    (by simp) (by simp)

end AvrSts
